import Mathlib

/-!
Verification development for the health-risk service backend
(`src/recover/backend/app.py`).

Shallow embedding conventions:
* Python floats are modelled as rationals (`ℚ`); Python ints as `ℤ`/`ℕ`.
* A calendar date is modelled as its day number (days since 1970-01-01,
  as an integer), since `datetime` plus whole-day `timedelta` arithmetic
  is isomorphic to integer day arithmetic; the civil (year, month, day)
  triple is recovered with the standard proleptic-Gregorian conversion.
* `random.uniform(-0.03, 0.03)` draws are modelled as explicit noise
  parameters: each call site of `compute_risk` receives its own draw
  (operations that loop over the store receive a function from the loop
  index to the draw).  Quantifying over these parameters quantifies over
  all possible outcomes of the random source.
* Python code that raises (`ZeroDivisionError` on `population / 0`,
  HTTP error responses) is embedded with `Option` / explicit result
  inductives.
-/

/-! ## Calendar arithmetic (proleptic Gregorian, day numbers) -/

/-- Civil (year, month, day) from a day number counted from 1970-01-01,
using the standard proleptic-Gregorian conversion with floor division. -/
def civilFromDays (z : ℤ) : ℤ × ℕ × ℕ :=
  let z' := z + 719468
  let era := Int.fdiv z' 146097
  let doe := z' - era * 146097
  let yoe := Int.fdiv (doe - Int.fdiv doe 1460 + Int.fdiv doe 36524 - Int.fdiv doe 146096) 365
  let y := yoe + era * 400
  let doy := doe - (365 * yoe + Int.fdiv yoe 4 - Int.fdiv yoe 100)
  let mp := Int.fdiv (5 * doy + 2) 153
  let d := doy - Int.fdiv (153 * mp + 2) 5 + 1
  let m := mp + (if mp < 10 then 3 else -9)
  (y + (if m ≤ 2 then 1 else 0), m.toNat, d.toNat)

/-- Day number (from 1970-01-01) of a civil (year, month, day). -/
def daysFromCivil (y : ℤ) (m d : ℕ) : ℤ :=
  let y' := y - (if m ≤ 2 then 1 else 0)
  let era := Int.fdiv y' 400
  let yoe := y' - era * 400
  let mp : ℤ := if 2 < m then (m : ℤ) - 3 else (m : ℤ) + 9
  let doy := Int.fdiv (153 * mp + 2) 5 + (d : ℤ) - 1
  let doe := yoe * 365 + Int.fdiv yoe 4 - Int.fdiv yoe 100 + doy
  era * 146097 + doe - 719468

/-- Month (1..12) of a day number; embeds Python `date.month`. -/
def monthOfDay (z : ℤ) : ℕ := (civilFromDays z).2.1

/-- Gregorian leap-year test. -/
def isLeap (y : ℕ) : Bool := y % 4 = 0 && (y % 100 ≠ 0 || y % 400 = 0)

/-- Number of days in a month, as validated by Python `datetime`. -/
def daysInMonth (y m : ℕ) : ℕ :=
  if m = 2 then (if isLeap y then 29 else 28)
  else if m = 4 ∨ m = 6 ∨ m = 9 ∨ m = 11 then 30
  else 31

/-! ## String helpers (structural, over `String.data`) -/

/-- Prefix test on character lists. -/
def hasPrefixL : List Char → List Char → Bool
  | [], _ => true
  | _ :: _, [] => false
  | a :: as, b :: bs => a = b && hasPrefixL as bs

/-- Substring test on character lists; embeds Python `needle in haystack`. -/
def containsL (needle : List Char) : List Char → Bool
  | [] => needle.isEmpty
  | b :: bs => hasPrefixL needle (b :: bs) || containsL needle bs

/-- Substring test on strings; embeds Python `a in b` for `str`. -/
def substrOf (a b : String) : Bool := containsL a.data b.data

/-- Lower-casing on strings; embeds Python `str.lower` (ASCII range). -/
def lowerStr (s : String) : String := ⟨s.data.map Char.toLower⟩

/-- Split a character list on the literal dash character. -/
def splitDash : List Char → List (List Char)
  | [] => [[]]
  | c :: rest =>
    if c = '-' then [] :: splitDash rest
    else
      match splitDash rest with
      | f :: r => (c :: f) :: r
      | [] => [[c]]

/-- Parse a nonempty all-digit character list as a natural number. -/
def digitsToNat : List Char → Option ℕ
  | [] => none
  | l => go l 0
where
  go : List Char → ℕ → Option ℕ
  | [], acc => some acc
  | c :: cs, acc => if c.isDigit then go cs (acc * 10 + (c.toNat - 48)) else none

/-- Decimal digit character for `n < 10`. -/
def digitChar (n : ℕ) : Char := Char.ofNat (48 + n % 10)

/-- Zero-padded two-digit rendering. -/
def pad2 (n : ℕ) : List Char := [digitChar (n / 10), digitChar n]

/-- Zero-padded four-digit rendering. -/
def pad4 (n : ℕ) : List Char :=
  [digitChar (n / 1000), digitChar (n / 100), digitChar (n / 10), digitChar n]

/-- Format a day number as a date string; embeds
`datetime.strftime("%Y-%m-%d")` (zero-padded fields). -/
def fmtDay (z : ℤ) : String :=
  let c := civilFromDays z
  ⟨pad4 c.1.toNat ++ '-' :: pad2 c.2.1 ++ '-' :: pad2 c.2.2⟩

/-- Parse a date string; embeds
`datetime.strptime(s, "%Y-%m-%d")`: exactly three dash-separated
all-digit fields (year exactly 4 digits, month and day 1-2 digits),
with month in 1..12, day in range for the month, year at least 1
(`datetime.MINYEAR`).  Returns the day number. -/
def parseDate (s : String) : Option ℤ :=
  match splitDash s.data with
  | [ys, ms, ds] =>
    match digitsToNat ys, digitsToNat ms, digitsToNat ds with
    | some y, some m, some d =>
      if ys.length = 4 ∧ ms.length ≤ 2 ∧ ds.length ≤ 2 ∧
         1 ≤ y ∧ 1 ≤ m ∧ m ≤ 12 ∧ 1 ≤ d ∧ d ≤ daysInMonth y m
      then some (daysFromCivil (y : ℤ) m d) else none
    | _, _, _ => none
  | _ => none

/-! ## Rounding (Python `round(x, 2)`) -/

/-- Round to nearest integer, ties to even; embeds Python `round` on the
idealized (rational) value. -/
def pyRound (q : ℚ) : ℤ :=
  if Int.fract q = 1 / 2 then (if 2 ∣ ⌊q⌋ then ⌊q⌋ else ⌊q⌋ + 1)
  else round q

/-- Round to two decimal places; embeds Python `round(x, 2)`. -/
def round2 (x : ℚ) : ℚ := (pyRound (x * 100) : ℚ) / 100

/-! ## The risk model (`compute_risk`) -/

/-- Monsoon seasonal factor of `compute_risk`:
`0.1 if date.month in [6, 7, 8, 9] else 0`. -/
def monsoonFactor (m : ℕ) : ℚ :=
  if m = 6 ∨ m = 7 ∨ m = 8 ∨ m = 9 then 1 / 10 else 0

/-- Summer seasonal factor of `compute_risk`:
`0.05 if date.month in [4, 5] else 0`. -/
def summerFactor (m : ℕ) : ℚ :=
  if m = 4 ∨ m = 5 then 1 / 20 else 0

/-- Density factor of `compute_risk`:
`min(0.15, max(0.0, (density / 30000) * 0.15))`. -/
def densityFactor (density : ℚ) : ℚ :=
  min (3 / 20) (max 0 (density / 30000 * (3 / 20)))

/-- Embeds `compute_risk(base_risk, date, population, area_sq_km)` with the
noise draw made explicit.  `date` is a day number.  Returns `none` when
`area_sq_km = 0`, where Python raises `ZeroDivisionError` on
`population / area_sq_km`. -/
def compute_risk (base_risk : ℚ) (date : ℤ) (population : ℤ) (area_sq_km : ℚ)
    (noise : ℚ) : Option ℚ :=
  if area_sq_km = 0 then none
  else
    let m := monthOfDay date
    let monsoon_factor := monsoonFactor m
    let summer_factor := summerFactor m
    let density := (population : ℚ) / area_sq_km
    let density_factor := densityFactor density
    let risk := base_risk + monsoon_factor + summer_factor + density_factor + noise
    some (round2 (min (max risk 0) 1))

/-! ## Data model and store -/

/-- Alert threshold constant `HIGH_RISK_THRESHOLD = 0.75`. -/
def HIGH_RISK_THRESHOLD : ℚ := 3 / 4

/-- A `City` record (the `cities` table row; `id` is store-assigned and
never read by the query layer, so it is omitted). -/
structure City where
  name : String
  state : String
  area_sq_km : ℚ
  population : ℤ
  base_risk : ℚ
  latitude : ℚ
  longitude : ℚ
deriving DecidableEq

/-- The store is a list of `City` records in insertion order; embeds
`db.query(City).all()`.  Exact-match lookup embeds
`db.query(City).filter(City.name == name).first()`. -/
def findByName (cities : List City) (name : String) : Option City :=
  cities.find? (fun c => c.name == name)

/-- Map an index-aware fallible function over a list, failing if any
element fails; embeds a Python loop that may raise at any element. -/
def mapIdxO (f : ℕ → α → Option β) : ℕ → List α → Option (List β)
  | _, [] => some []
  | i, a :: l =>
    match f i a, mapIdxO f (i + 1) l with
    | some b, some bs => some (b :: bs)
    | _, _ => none

/-! ## Response shapes -/

/-- Response row of heatmap-style queries: `{"city": ..., "risk": ...}`. -/
structure CityHeatmapData where
  city : String
  risk : ℚ
deriving DecidableEq

/-- Response of `/predict-risk`. -/
structure RiskPredictionResponse where
  city : String
  date : String
  predicted_risk : ℚ
deriving DecidableEq

/-- Response row of `/trend`. -/
structure HealthTrendData where
  date : String
  risk_score : ℚ
deriving DecidableEq

/-- Response of `/summary`. -/
structure SummaryResponse where
  highest_risk_city : CityHeatmapData
  average_risk : ℚ
  total_cities : ℕ
deriving DecidableEq

/-- Response of `/alerts`. -/
structure AlertResponse where
  alerts : List CityHeatmapData
  count : ℕ
deriving DecidableEq

/-- Decimal rendering of a risk score.  Risk scores are produced by
`round2`, hence carry at most two decimal digits; this renders them the
way Python float `repr` shows such values in the chat f-strings (one
decimal digit when the hundredths digit is zero, two otherwise). -/
def fmtRisk (r : ℚ) : String :=
  let sgn : List Char := if r < 0 then ['-'] else []
  let c := (pyRound (|r| * 100)).toNat
  let fr := c % 100
  let fracs : List Char :=
    if fr % 10 = 0 then [digitChar (fr / 10)] else [digitChar (fr / 10), digitChar fr]
  ⟨sgn ++ Nat.toDigits 10 (c / 100) ++ '.' :: fracs⟩

/-! ## Query and aggregation operations -/

/-- Result of the `/predict-risk` handler: 404, 400, unhandled
`ZeroDivisionError`, or a normal response. -/
inductive PredictResult where
  | notFound
  | invalidDate
  | crash
  | ok (resp : RiskPredictionResponse)
deriving DecidableEq

/-- Embeds `predict_risk`: the city is looked up first (404 when absent),
then the date string is parsed (400 when unparsable), then a single
score is computed. -/
def predict_risk (cities : List City) (city : String) (date : String)
    (noise : ℚ) : PredictResult :=
  match findByName cities city with
  | none => .notFound
  | some c =>
    match parseDate date with
    | none => .invalidDate
    | some d =>
      match compute_risk c.base_risk d c.population c.area_sq_km noise with
      | none => .crash
      | some r => .ok ⟨c.name, date, r⟩

/-- Result of the `/trend` handler. -/
inductive TrendResult where
  | notFound
  | crash
  | ok (entries : List HealthTrendData)
deriving DecidableEq

/-- Day numbers of the trend window, oldest first; embeds
`[today - timedelta(days=i) for i in range(6, -1, -1)]`. -/
def trendDates (today : ℤ) : List ℤ :=
  (List.range 7).map (fun k : ℕ => today - 6 + (k : ℤ))

/-- Embeds `get_trend`: exact-match lookup, then one entry per day of the
7-day window ending today, oldest first, each with its formatted date. -/
def get_trend (cities : List City) (city : String) (today : ℤ)
    (noise : ℕ → ℚ) : TrendResult :=
  match findByName cities city with
  | none => .notFound
  | some c =>
    match mapIdxO
        (fun k d =>
          (compute_risk c.base_risk d c.population c.area_sq_km (noise k)).map
            (fun r => ({ date := fmtDay d, risk_score := r } : HealthTrendData)))
        0 (trendDates today) with
    | none => .crash
    | some entries => .ok entries

/-- One row of the heatmap/summary computation:
`{"city": c.name, "risk": compute_risk(...)}`. -/
def heatmapRow (c : City) (today : ℤ) (n : ℚ) : Option CityHeatmapData :=
  (compute_risk c.base_risk today c.population c.area_sq_km n).map
    (fun r => ⟨c.name, r⟩)

/-- The per-city score rows used by `/heatmap-data` and `/summary`. -/
def heatmapData (cities : List City) (today : ℤ) (noise : ℕ → ℚ) :
    Option (List CityHeatmapData) :=
  mapIdxO (fun i c => heatmapRow c today (noise i)) 0 cities

/-- Embeds Python `max(x :: l, key=lambda d: d["risk"])`: scan left to
right, replace the current best only on a strictly larger key, so the
first maximal element wins. -/
def pyMaxBy (x : CityHeatmapData) (l : List CityHeatmapData) : CityHeatmapData :=
  l.foldl (fun best d => if best.risk < d.risk then d else best) x

/-- Result of the `/summary` handler. -/
inductive SummaryResult where
  | crash
  | ok (resp : SummaryResponse)
deriving DecidableEq

/-- Embeds `get_summary`: sentinel on an empty store, otherwise the
first-maximum row, the mean score rounded to two decimals, and the
city count.  (The inner `[]` case is unreachable: the row list has one
row per city.) -/
def get_summary (cities : List City) (today : ℤ) (noise : ℕ → ℚ) :
    SummaryResult :=
  match cities with
  | [] => .ok ⟨⟨"N/A", 0⟩, 0, 0⟩
  | _ :: _ =>
    match heatmapData cities today noise with
    | none => .crash
    | some [] => .crash
    | some (x :: xs) =>
      .ok ⟨pyMaxBy x xs,
           round2 (((x :: xs).map (fun d => d.risk)).sum / ((x :: xs).length : ℚ)),
           cities.length⟩

/-- Result of the `/alerts` handler. -/
inductive AlertsResult where
  | crash
  | ok (resp : AlertResponse)
deriving DecidableEq

/-- One step of the alert list comprehension: the filter condition draws
one noise value (`nf`), and only when it passes does the element
expression draw another (`nr`) for the reported score.  Outer `none`
is a raised `ZeroDivisionError`; `some none` means filtered out. -/
def alertRow (c : City) (today : ℤ) (nf nr : ℚ) : Option (Option CityHeatmapData) :=
  match compute_risk c.base_risk today c.population c.area_sq_km nf with
  | none => none
  | some rf =>
    if HIGH_RISK_THRESHOLD ≤ rf then
      match compute_risk c.base_risk today c.population c.area_sq_km nr with
      | none => none
      | some rr => some (some ⟨c.name, rr⟩)
    else some none

/-- Embeds `get_alerts`: keep the cities whose freshly drawn score passes
the threshold, reporting a second freshly drawn score for each. -/
def get_alerts (cities : List City) (today : ℤ) (noiseF noiseR : ℕ → ℚ) :
    AlertsResult :=
  match mapIdxO (fun i c => alertRow c today (noiseF i) (noiseR i)) 0 cities with
  | none => .crash
  | some rows => .ok ⟨rows.reduceOption, rows.reduceOption.length⟩

/-- Result of the `/chat` handler. -/
inductive ChatResult where
  | crash
  | ok (response : String)
deriving DecidableEq

/-- The part of the chat handler after the city loop: the
"high risk"/"alerts" keyword branch (which recomputes the alert list
with fresh draws, one filter draw and one report draw per city), else
the generic help message. -/
def chatFallback (cities : List City) (today : ℤ) (text : String)
    (noiseF noiseR : ℕ → ℚ) : ChatResult :=
  if substrOf "high risk" text || substrOf "alerts" text then
    match mapIdxO
        (fun i c =>
          match compute_risk c.base_risk today c.population c.area_sq_km (noiseF i) with
          | none => none
          | some rf =>
            if HIGH_RISK_THRESHOLD ≤ rf then
              match compute_risk c.base_risk today c.population c.area_sq_km (noiseR i) with
              | none => none
              | some rr => some (some (c.name ++ " (" ++ fmtRisk rr ++ ")"))
            else some none)
        0 cities with
    | none => .crash
    | some rows =>
      if rows.reduceOption.isEmpty then .ok "No high-risk cities right now."
      else .ok ("High-risk cities: " ++ String.intercalate ", " rows.reduceOption)
  else .ok "Ask about a city\x27s risk, risk trend, or high-risk alerts."

/-- The city loop of the chat handler: for each city in store order whose
lower-cased name occurs in the query, answer with its risk if the query
mentions "risk", else with a trend pointer if it mentions "trend";
otherwise keep scanning.  `none` means the loop fell through. -/
def chatGo (today : ℤ) (text : String) (noiseC : ℕ → ℚ) :
    List City → ℕ → Option ChatResult
  | [], _ => none
  | c :: rest, i =>
    if substrOf (lowerStr c.name) text then
      if substrOf "risk" text then
        some (match compute_risk c.base_risk today c.population c.area_sq_km (noiseC i) with
          | none => .crash
          | some r =>
            .ok ("The current health risk in " ++ c.name ++ " is " ++ fmtRisk r ++ "."))
      else if substrOf "trend" text then
        some (.ok ("You can check the risk trend at /trend?city=" ++ c.name))
      else chatGo today text noiseC rest (i + 1)
    else chatGo today text noiseC rest (i + 1)

/-- Embeds the `/chat` handler: lower-case the query, run the city loop,
and fall through to the keyword branch when the loop does not answer. -/
def chat (cities : List City) (today : ℤ) (query : String)
    (noiseC noiseF noiseR : ℕ → ℚ) : ChatResult :=
  let text := lowerStr query
  match chatGo today text noiseC cities 0 with
  | some res => res
  | none => chatFallback cities today text noiseF noiseR

/-! ## Rounding lemmas -/

lemma pyRound_intCast (k : ℤ) : pyRound (k : ℚ) = k := by
  unfold pyRound
  rw [Int.fract_intCast]
  norm_num [round_intCast]

lemma round2_eq_int (x : ℚ) (k : ℤ) (h : x * 100 = (k : ℚ)) :
    round2 x = (k : ℚ) / 100 := by
  rw [round2, h, pyRound_intCast]

lemma le_pyRound (q : ℚ) (n : ℤ) (h : (n : ℚ) ≤ q) : n ≤ pyRound q := by
  unfold pyRound
  have hfl : n ≤ ⌊q⌋ := by exact_mod_cast Int.le_floor.mpr h
  split
  · split <;> omega
  · rw [round_eq]
    have : (n : ℚ) + 1 / 2 ≤ q + 1 / 2 := by linarith
    have := Int.floor_mono this
    rw [show (n : ℚ) + 1 / 2 = 1 / 2 + (n : ℤ) by ring, Int.floor_add_int] at this
    norm_num at this
    omega

lemma pyRound_le (q : ℚ) (n : ℤ) (h : q ≤ (n : ℚ)) : pyRound q ≤ n := by
  unfold pyRound
  split
  · rename_i htie
    have hq : q = (⌊q⌋ : ℚ) + 1 / 2 := by
      have := Int.fract_add_floor q
      rw [htie] at this
      
      linarith
    have : (⌊q⌋ : ℚ) + 1 / 2 ≤ (n : ℚ) := by linarith [hq ▸ h]
    have hlt : (⌊q⌋ : ℚ) < (n : ℚ) := by linarith
    have : ⌊q⌋ < n := by exact_mod_cast hlt
    split <;> omega
  · rw [round_eq]
    have : q + 1 / 2 ≤ (n : ℚ) + 1 / 2 := by linarith
    have := Int.floor_mono this
    rw [show (n : ℚ) + 1 / 2 = 1 / 2 + (n : ℤ) by ring, Int.floor_add_int] at this
    norm_num at this
    omega

lemma round2_bounds {x : ℚ} (h0 : 0 ≤ x) (h1 : x ≤ 1) :
    0 ≤ round2 x ∧ round2 x ≤ 1 ∧ ∃ k : ℤ, round2 x = (k : ℚ) / 100 := by
  have hl : (0 : ℤ) ≤ pyRound (x * 100) := le_pyRound _ 0 (by push_cast; nlinarith)
  have hr : pyRound (x * 100) ≤ 100 := pyRound_le _ 100 (by push_cast; nlinarith)
  refine ⟨?_, ?_, pyRound (x * 100), rfl⟩
  · rw [round2]
    apply div_nonneg _ (by norm_num)
    exact_mod_cast hl
  · rw [round2]
    rw [div_le_one (by norm_num)]
    exact_mod_cast hr

/-! ## Concrete evaluation helper for the risk model -/

lemma compute_risk_concrete (b : ℚ) (d p : ℤ) (a n : ℚ) (ha : a ≠ 0) (k : ℤ)
    (h : min (max (b + monsoonFactor (monthOfDay d) + summerFactor (monthOfDay d) +
      densityFactor ((p : ℚ) / a) + n) 0) 1 * 100 = (k : ℚ)) :
    compute_risk b d p a n = some ((k : ℚ) / 100) := by
  unfold compute_risk
  rw [if_neg ha]
  dsimp only
  congr 1
  exact round2_eq_int _ k h

/-! ## Claim theorems: the risk model -/

/-- C1: for every input with positive `area_sq_km`, `compute_risk` returns
a value in [0.00, 1.00] that is an integer multiple of 1/100 (i.e. rounded
to exactly 2 decimal places). -/
theorem compute_risk_range (b : ℚ) (d p : ℤ) (a n : ℚ) (ha : 0 < a) :
    ∃ r : ℚ, compute_risk b d p a n = some r ∧ 0 ≤ r ∧ r ≤ 1 ∧
      ∃ k : ℤ, r = (k : ℚ) / 100 := by
  have hne : a ≠ 0 := ne_of_gt ha
  refine ⟨round2 (min (max (b + monsoonFactor (monthOfDay d) + summerFactor (monthOfDay d) +
      densityFactor ((p : ℚ) / a) + n) 0) 1), ?_, ?_⟩
  · unfold compute_risk
    rw [if_neg hne]
  · exact round2_bounds (le_min (le_max_right _ 0) zero_le_one) (min_le_right _ _)

/-- Witness for C1 at a concrete input. -/
theorem compute_risk_range_witness :
    (0 : ℚ) < 1 ∧ ∃ r : ℚ, compute_risk (1/2) 0 0 1 0 = some r ∧ 0 ≤ r ∧ r ≤ 1 ∧
      ∃ k : ℤ, r = (k : ℚ) / 100 :=
  ⟨by norm_num, compute_risk_range (1/2) 0 0 1 0 (by norm_num)⟩

/-- C8: `compute_risk` has no failure for positive area, while at
`area_sq_km = 0` the unguarded division makes it fail. -/
theorem compute_risk_safety :
    (∀ (b : ℚ) (d p : ℤ) (a n : ℚ), 0 < a → (compute_risk b d p a n).isSome = true) ∧
    (∀ (b : ℚ) (d p : ℤ) (n : ℚ), compute_risk b d p 0 n = none) := by
  constructor
  · intro b d p a n ha
    unfold compute_risk
    rw [if_neg (ne_of_gt ha)]
    rfl
  · intro b d p n
    unfold compute_risk
    rw [if_pos rfl]

/-- Witness for C8 at concrete inputs. -/
theorem compute_risk_safety_witness :
    (compute_risk (1/2) 0 0 1 0).isSome = true ∧ compute_risk (1/2) 0 0 0 0 = none :=
  ⟨compute_risk_safety.1 (1/2) 0 0 1 0 (by norm_num),
   compute_risk_safety.2 (1/2) 0 0 0⟩

/-- C9: with identical explicit arguments, two noise draws inside
[-0.03, 0.03] can produce different results, so the function is not
deterministic in its explicit arguments. -/
theorem compute_risk_noise_dependent :
    ∃ n₁ n₂ : ℚ, -(3/100) ≤ n₁ ∧ n₁ ≤ 3/100 ∧ -(3/100) ≤ n₂ ∧ n₂ ≤ 3/100 ∧
      compute_risk (1/2) 0 0 1 n₁ ≠ compute_risk (1/2) 0 0 1 n₂ := by
  have hm : monthOfDay 0 = 1 := by decide
  have h1 : compute_risk (1/2) 0 0 1 (3/100) = some (((53 : ℤ) : ℚ) / 100) :=
    compute_risk_concrete _ _ _ _ _ one_ne_zero 53
      (by rw [hm]; norm_num [monsoonFactor, summerFactor, densityFactor, min_def, max_def])
  have h2 : compute_risk (1/2) 0 0 1 (-(3/100)) = some (((47 : ℤ) : ℚ) / 100) :=
    compute_risk_concrete _ _ _ _ _ one_ne_zero 47
      (by rw [hm]; norm_num [monsoonFactor, summerFactor, densityFactor, min_def, max_def])
  refine ⟨3/100, -(3/100), by norm_num, by norm_num, by norm_num, by norm_num, ?_⟩
  rw [h1, h2]
  intro hcontra
  rw [Option.some_inj] at hcontra
  norm_num at hcontra

/-- C5: the seasonal contribution is exactly 0.10 in months 6-9, exactly
0.05 in months 4-5, and 0 otherwise, and the monsoon and summer factors
are never both nonzero. -/
theorem seasonal_factor_spec (d : ℤ) :
    (monsoonFactor (monthOfDay d) + summerFactor (monthOfDay d) =
      if monthOfDay d = 6 ∨ monthOfDay d = 7 ∨ monthOfDay d = 8 ∨ monthOfDay d = 9 then 1 / 10
      else if monthOfDay d = 4 ∨ monthOfDay d = 5 then 1 / 20
      else 0) ∧
    ¬(monsoonFactor (monthOfDay d) ≠ 0 ∧ summerFactor (monthOfDay d) ≠ 0) := by
  generalize monthOfDay d = m
  unfold monsoonFactor summerFactor
  constructor
  · split_ifs <;>
      first
        | omega
        | (rename_i ha hb; rcases ha with h | h | h | h <;> rcases hb with h2 | h2)
        | norm_num
  · intro hboth
    obtain ⟨hmon, hsum⟩ := hboth
    rw [ne_eq, ite_eq_right_iff] at hmon hsum
    push_neg at hmon hsum
    omega

/-- C6: the density factor is monotone non-decreasing in the density
`population / area_sq_km` (for positive areas), always lies in
[0, 0.15], and attains the cap 0.15 at density 30000. -/
theorem densityFactor_spec :
    (∀ (p₁ p₂ : ℤ) (a₁ a₂ : ℚ), 0 < a₁ → 0 < a₂ → (p₁ : ℚ) / a₁ ≤ (p₂ : ℚ) / a₂ →
        densityFactor ((p₁ : ℚ) / a₁) ≤ densityFactor ((p₂ : ℚ) / a₂)) ∧
    (∀ dens : ℚ, 0 ≤ densityFactor dens ∧ densityFactor dens ≤ 3 / 20) ∧
    densityFactor 30000 = 3 / 20 := by
  refine ⟨?_, ?_, ?_⟩
  · intro p₁ p₂ a₁ a₂ _ _ hd
    unfold densityFactor
    refine min_le_min le_rfl (max_le_max le_rfl ?_)
    apply mul_le_mul_of_nonneg_right _ (by norm_num)
    exact (div_le_div_iff_of_pos_right (by norm_num)).mpr hd
  · intro dens
    unfold densityFactor
    exact ⟨le_min (by norm_num) (le_max_left 0 _), min_le_left _ _⟩
  · unfold densityFactor
    norm_num [min_def, max_def]

/-- Witness for C6 at concrete inputs. -/
theorem densityFactor_spec_witness :
    (0 : ℚ) < 1 ∧ (0 : ℚ) < 2 ∧ ((0 : ℤ) : ℚ) / 1 ≤ ((30000 : ℤ) : ℚ) / 2 ∧
      densityFactor (((0 : ℤ) : ℚ) / 1) ≤ densityFactor (((30000 : ℤ) : ℚ) / 2) :=
  ⟨by norm_num, by norm_num, by norm_num,
   densityFactor_spec.1 0 30000 1 2 (by norm_num) (by norm_num) (by norm_num)⟩

/-! ## Lemmas about `mapIdxO` -/

lemma mapIdxO_mem {α β : Type} {f : ℕ → α → Option β} :
    ∀ (l : List α) (k : ℕ) (rows : List β), mapIdxO f k l = some rows →
      ∀ b ∈ rows, ∃ i a, l.get? i = some a ∧ f (k + i) a = some b := by
  intro l
  induction l with
  | nil =>
    intro k rows h b hb
    simp only [mapIdxO, Option.some_inj] at h
    subst h
    simp at hb
  | cons a l ih =>
    intro k rows h b hb
    simp only [mapIdxO] at h
    cases hfa : f k a with
    | none => rw [hfa] at h; simp at h
    | some b0 =>
      cases hml : mapIdxO f (k + 1) l with
      | none => rw [hfa, hml] at h; simp at h
      | some bs =>
        rw [hfa, hml] at h
        simp only [Option.some_inj] at h
        subst h
        rcases List.mem_cons.mp hb with hb0 | hbs
        · subst hb0
          exact ⟨0, a, rfl, by simpa using hfa⟩
        · obtain ⟨i, a', hget, hf⟩ := ih (k + 1) bs hml b hbs
          exact ⟨i + 1, a', by simpa using hget, by rw [show k + (i + 1) = k + 1 + i by omega]; exact hf⟩

lemma mapIdxO_map {α β γ : Type} {f : ℕ → α → Option β} {g : β → γ} {h : α → γ}
    (hf : ∀ i a b, f i a = some b → g b = h a) :
    ∀ (l : List α) (k : ℕ) (rows : List β), mapIdxO f k l = some rows →
      rows.map g = l.map h := by
  intro l
  induction l with
  | nil =>
    intro k rows hm
    simp only [mapIdxO, Option.some_inj] at hm
    subst hm
    rfl
  | cons a l ih =>
    intro k rows hm
    simp only [mapIdxO] at hm
    cases hfa : f k a with
    | none => rw [hfa] at hm; simp at hm
    | some b0 =>
      cases hml : mapIdxO f (k + 1) l with
      | none => rw [hfa, hml] at hm; simp at hm
      | some bs =>
        rw [hfa, hml] at hm
        simp only [Option.some_inj] at hm
        subst hm
        simp only [List.map_cons]
        rw [hf k a b0 hfa, ih (k + 1) bs hml]

lemma mapIdxO_length {α β : Type} {f : ℕ → α → Option β} :
    ∀ (l : List α) (k : ℕ) (rows : List β), mapIdxO f k l = some rows →
      rows.length = l.length := by
  intro l k rows hm
  have := mapIdxO_map (g := fun _ => ()) (h := fun _ => ()) (by intro _ _ _ _; rfl) l k rows hm
  have hlen := congrArg List.length this
  simpa using hlen

/-! ## Claim theorems: predict (C3) -/

/-- C3 counterexample: with an unknown region and an unparsable date, the
handler reports NotFound (the region lookup runs first), not InvalidDate
as the claim states. -/
theorem predict_unknown_city_bad_date :
    predict_risk [] "Atlantis" "2024-13-01" 0 = .notFound ∧
    parseDate "2024-13-01" = none ∧
    PredictResult.notFound ≠ PredictResult.invalidDate :=
  ⟨rfl, by decide, by decide⟩

/-- C3 amended: the region lookup runs first, so an unknown region fails
with NotFound even when the date is also unparsable; for a known region
an unparsable date fails with InvalidDate; otherwise the single computed
score for that date is returned. -/
theorem predict_risk_spec (cities : List City) (city date : String) (noise : ℚ) :
    (findByName cities city = none → predict_risk cities city date noise = .notFound) ∧
    (∀ c, findByName cities city = some c → parseDate date = none →
      predict_risk cities city date noise = .invalidDate) ∧
    (∀ c d r, findByName cities city = some c → parseDate date = some d →
      compute_risk c.base_risk d c.population c.area_sq_km noise = some r →
      predict_risk cities city date noise = .ok ⟨c.name, date, r⟩) := by
  refine ⟨?_, ?_, ?_⟩
  · intro h
    unfold predict_risk
    rw [h]
  · intro c hc hd
    unfold predict_risk
    rw [hc, hd]
  · intro c d r hc hd hr
    unfold predict_risk
    rw [hc, hd]
    dsimp only
    rw [hr]

/-- Witness for C3 (amended) at concrete inputs: a known region with an
unparsable date fails with InvalidDate. -/
theorem predict_risk_spec_witness :
    predict_risk [⟨"Delhi", "Delhi", 1500, 20000000, 13/20, 0, 0⟩] "Delhi" "2024-13-01" 0 =
      .invalidDate :=
  (predict_risk_spec [⟨"Delhi", "Delhi", 1500, 20000000, 13/20, 0, 0⟩] "Delhi" "2024-13-01" 0).2.1
    ⟨"Delhi", "Delhi", 1500, 20000000, 13/20, 0, 0⟩ rfl (by decide)

/-! ## Claim theorems: trend (C4) -/

lemma trendDates_explicit (today : ℤ) :
    trendDates today =
      [today - 6, today - 5, today - 4, today - 3, today - 2, today - 1, today] := by
  unfold trendDates
  rw [show List.range 7 = ([0, 1, 2, 3, 4, 5, 6] : List ℕ) from rfl]
  simp only [List.map_cons, List.map_nil, List.cons.injEq, and_true]
  refine ⟨by omega, by omega, by omega, by omega, by omega, by omega, by omega⟩

lemma trendDates_facts (today : ℤ) :
    List.Chain' (· < ·) (trendDates today) ∧
    (trendDates today).head? = some (today - 6) ∧
    (trendDates today).getLast? = some today := by
  refine ⟨?_, ?_, ?_⟩
  · rw [trendDates_explicit]
    simp only [List.chain'_cons, List.chain'_singleton, and_true]
    omega
  · rw [trendDates_explicit]
    rfl
  · rw [trendDates_explicit]
    rfl

lemma compute_risk_isSome_of_ne (b : ℚ) (d p : ℤ) (a n : ℚ) (ha : a ≠ 0) :
    ∃ r, compute_risk b d p a n = some r := by
  unfold compute_risk
  rw [if_neg ha]
  exact ⟨_, rfl⟩

lemma mapIdxO_isSome {α β : Type} {f : ℕ → α → Option β} :
    ∀ (l : List α) (k : ℕ), (∀ (i : ℕ) (a : α), a ∈ l → (f i a).isSome = true) →
      ∃ rows, mapIdxO f k l = some rows := by
  intro l
  induction l with
  | nil => exact fun k _ => ⟨[], rfl⟩
  | cons a l ih =>
    intro k hf
    obtain ⟨b, hb⟩ := Option.isSome_iff_exists.mp (hf k a (List.mem_cons_self a l))
    obtain ⟨rows, hrows⟩ := ih (k + 1) (fun i a' ha' => hf i a' (List.mem_cons_of_mem a ha'))
    exact ⟨b :: rows, by simp only [mapIdxO, hb, hrows]⟩

lemma trend_rows_props (c : City) (today : ℤ) (noise : ℕ → ℚ) (rows : List HealthTrendData)
    (hmap : mapIdxO
        (fun k d =>
          (compute_risk c.base_risk d c.population c.area_sq_km (noise k)).map
            (fun r => ({ date := fmtDay d, risk_score := r } : HealthTrendData)))
        0 (trendDates today) = some rows) :
    rows.length = 7 ∧ rows.map (fun e => e.date) = (trendDates today).map fmtDay := by
  constructor
  · have hlen : rows.length = (trendDates today).length := mapIdxO_length _ 0 rows hmap
    rw [hlen, trendDates_explicit]
    rfl
  · refine mapIdxO_map ?_ _ 0 rows hmap
    intro i d b hb
    cases hcr : compute_risk c.base_risk d c.population c.area_sq_km (noise i) with
    | none => rw [hcr] at hb; simp at hb
    | some r =>
      rw [hcr] at hb
      simp only [Option.map_some', Option.some_inj] at hb
      subst hb
      rfl

/-- C4: an unknown region fails NotFound; any successful return has
exactly 7 entries whose dates are the formatted days `today-6 … today`
oldest first (a strictly increasing date sequence); and every
exactly-matched region with nonzero area (the validity precondition of
the unguarded division inside `compute_risk`) does return such a
successful 7-entry window. -/
theorem get_trend_spec (cities : List City) (city : String) (today : ℤ) (noise : ℕ → ℚ) :
    (findByName cities city = none → get_trend cities city today noise = .notFound) ∧
    (∀ entries, get_trend cities city today noise = .ok entries →
      entries.length = 7 ∧
      entries.map (fun e => e.date) = (trendDates today).map fmtDay ∧
      List.Chain' (· < ·) (trendDates today) ∧
      (trendDates today).head? = some (today - 6) ∧
      (trendDates today).getLast? = some today) ∧
    (∀ c, findByName cities city = some c → c.area_sq_km ≠ 0 →
      ∃ entries, get_trend cities city today noise = .ok entries ∧
        entries.length = 7 ∧
        entries.map (fun e => e.date) = (trendDates today).map fmtDay ∧
        List.Chain' (· < ·) (trendDates today) ∧
        (trendDates today).head? = some (today - 6) ∧
        (trendDates today).getLast? = some today) := by
  refine ⟨?_, ?_, ?_⟩
  · intro h
    unfold get_trend
    rw [h]
  · intro entries h
    unfold get_trend at h
    cases hfind : findByName cities city with
    | none => rw [hfind] at h; simp at h
    | some c =>
      rw [hfind] at h
      dsimp only at h
      cases hmap : mapIdxO
          (fun k d =>
            (compute_risk c.base_risk d c.population c.area_sq_km (noise k)).map
              (fun r => ({ date := fmtDay d, risk_score := r } : HealthTrendData)))
          0 (trendDates today) with
      | none => rw [hmap] at h; simp at h
      | some rows =>
        rw [hmap] at h
        simp only [TrendResult.ok.injEq] at h
        subst h
        obtain ⟨hlen, hdates⟩ := trend_rows_props c today noise rows hmap
        obtain ⟨hchain, hhead, hlast⟩ := trendDates_facts today
        exact ⟨hlen, hdates, hchain, hhead, hlast⟩
  · intro c hfind hne
    have hsome : ∀ (i : ℕ) (d : ℤ), d ∈ trendDates today →
        ((compute_risk c.base_risk d c.population c.area_sq_km (noise i)).map
          (fun r => ({ date := fmtDay d, risk_score := r } : HealthTrendData))).isSome =
          true := by
      intro i d _
      obtain ⟨r, hr⟩ := compute_risk_isSome_of_ne c.base_risk d c.population c.area_sq_km
        (noise i) hne
      rw [hr]
      rfl
    obtain ⟨rows, hmap⟩ := mapIdxO_isSome (trendDates today) 0 hsome
    have hok : get_trend cities city today noise = .ok rows := by
      unfold get_trend
      rw [hfind]
      dsimp only
      rw [hmap]
    obtain ⟨hlen, hdates⟩ := trend_rows_props c today noise rows hmap
    obtain ⟨hchain, hhead, hlast⟩ := trendDates_facts today
    exact ⟨rows, hok, hlen, hdates, hchain, hhead, hlast⟩

/-- Witness for C4 at concrete inputs: the empty store fails NotFound for
an unknown name, and a one-region store returns a successful 7-entry
window for its region. -/
theorem get_trend_spec_witness :
    get_trend [] "Atlantis" 0 (fun _ => 0) = .notFound ∧
    ∃ entries,
      get_trend [⟨"Delhi", "Delhi", 1500, 20000000, 13/20, 0, 0⟩] "Delhi" 0 (fun _ => 0) =
        .ok entries ∧
      entries.length = 7 ∧
      entries.map (fun e => e.date) = (trendDates 0).map fmtDay ∧
      List.Chain' (· < ·) (trendDates 0) ∧
      (trendDates 0).head? = some (0 - 6) ∧
      (trendDates 0).getLast? = some 0 :=
  ⟨(get_trend_spec [] "Atlantis" 0 (fun _ => 0)).1 rfl,
   (get_trend_spec [⟨"Delhi", "Delhi", 1500, 20000000, 13/20, 0, 0⟩] "Delhi" 0
       (fun _ => 0)).2.2
     ⟨"Delhi", "Delhi", 1500, 20000000, 13/20, 0, 0⟩ rfl (by norm_num)⟩


/-! ## Claim theorems: summary (C7) -/

lemma pyMaxBy_spec (l : List CityHeatmapData) :
    ∀ x : CityHeatmapData, ∃ l₁ l₂, x :: l = l₁ ++ pyMaxBy x l :: l₂ ∧
      (∀ e ∈ l₁, e.risk < (pyMaxBy x l).risk) ∧
      (∀ e ∈ x :: l, e.risk ≤ (pyMaxBy x l).risk) := by
  induction l with
  | nil =>
    intro x
    exact ⟨[], [], rfl, by simp, by simp [pyMaxBy]⟩
  | cons d t ih =>
    intro x
    have hstep : pyMaxBy x (d :: t) = pyMaxBy (if x.risk < d.risk then d else x) t := rfl
    by_cases hxd : x.risk < d.risk
    · obtain ⟨l₁, l₂, heq, hlt, hle⟩ := ih d
      rw [hstep, if_pos hxd]
      refine ⟨x :: l₁, l₂, ?_, ?_, ?_⟩
      · rw [List.cons_append, ← heq]
      · intro e he
        rcases List.mem_cons.mp he with rfl | hmem
        · exact lt_of_lt_of_le hxd (hle d (List.mem_cons_self d t))
        · exact hlt e hmem
      · intro e he
        rcases List.mem_cons.mp he with rfl | hmem
        · exact le_of_lt (lt_of_lt_of_le hxd (hle d (List.mem_cons_self d t)))
        · exact hle e hmem
    · obtain ⟨l₁, l₂, heq, hlt, hle⟩ := ih x
      rw [hstep, if_neg hxd]
      cases l₁ with
      | nil =>
        simp only [List.nil_append, List.cons.injEq] at heq
        obtain ⟨hx, ht⟩ := heq
        refine ⟨[], d :: t, by rw [List.nil_append, ← hx], by simp, ?_⟩
        intro e he
        rcases List.mem_cons.mp he with rfl | hmem
        · exact hle e (List.mem_cons_self e t)
        · rcases List.mem_cons.mp hmem with rfl | hmem'
          · calc e.risk ≤ x.risk := not_lt.mp hxd
              _ ≤ (pyMaxBy x t).risk := hle x (List.mem_cons_self x t)
          · exact hle e (List.mem_cons_of_mem x hmem')
      | cons a l₁' =>
        simp only [List.cons_append, List.cons.injEq] at heq
        obtain ⟨hx, ht⟩ := heq
        have hxlt : x.risk < (pyMaxBy x t).risk := by
          have := hlt a (List.mem_cons_self a l₁')
          rwa [← hx] at this
        refine ⟨x :: d :: l₁', l₂, ?_, ?_, ?_⟩
        · simp only [List.cons_append, List.cons.injEq, true_and]
          exact ht
        · intro e he
          rcases List.mem_cons.mp he with rfl | hmem
          · exact hxlt
          · rcases List.mem_cons.mp hmem with rfl | hmem'
            · exact lt_of_le_of_lt (not_lt.mp hxd) hxlt
            · exact hlt e (List.mem_cons_of_mem a hmem')
        · intro e he
          rcases List.mem_cons.mp he with rfl | hmem
          · exact le_of_lt hxlt
          · rcases List.mem_cons.mp hmem with rfl | hmem'
            · exact le_of_lt (lt_of_le_of_lt (not_lt.mp hxd) hxlt)
            · exact hle e (List.mem_cons_of_mem x hmem')

/-- C7: summary on the empty store returns the sentinel; on a non-empty
store it returns the first maximal row (ties broken by store order), the
mean of the computed scores rounded to 2 decimals, and the region count. -/
theorem get_summary_spec (today : ℤ) (noise : ℕ → ℚ) :
    get_summary [] today noise = .ok ⟨⟨"N/A", 0⟩, 0, 0⟩ ∧
    (∀ (cities : List City) (data : List CityHeatmapData) (resp : SummaryResponse),
      cities ≠ [] →
      heatmapData cities today noise = some data →
      get_summary cities today noise = .ok resp →
      (∃ l₁ l₂, data = l₁ ++ resp.highest_risk_city :: l₂ ∧
          (∀ e ∈ l₁, e.risk < resp.highest_risk_city.risk) ∧
          (∀ e ∈ data, e.risk ≤ resp.highest_risk_city.risk)) ∧
      resp.average_risk = round2 ((data.map (fun e => e.risk)).sum / (data.length : ℚ)) ∧
      resp.total_cities = cities.length) := by
  constructor
  · rfl
  · intro cities data resp hne hdata hsum
    cases cities with
    | nil => exact absurd rfl hne
    | cons c cs =>
      unfold get_summary at hsum
      rw [hdata] at hsum
      cases data with
      | nil => simp at hsum
      | cons x xs =>
        simp only [SummaryResult.ok.injEq] at hsum
        subst hsum
        refine ⟨?_, rfl, rfl⟩
        obtain ⟨l₁, l₂, heq, hlt, hle⟩ := pyMaxBy_spec xs x
        exact ⟨l₁, l₂, heq, hlt, hle⟩

/-- Witness helper: the single computed row of the C7 witness store. -/
lemma summary_witness_row :
    compute_risk (1/2) 0 0 1 0 = some (((50 : ℤ) : ℚ) / 100) := by
  have hm : monthOfDay 0 = 1 := by decide
  exact compute_risk_concrete _ _ _ _ _ one_ne_zero 50
    (by rw [hm]; norm_num [monsoonFactor, summerFactor, densityFactor, min_def, max_def])

/-- Witness helper: the heatmap rows of the C7 witness store. -/
lemma summary_witness_data :
    heatmapData [⟨"A", "S", 1, 0, 1/2, 0, 0⟩] 0 (fun _ => 0) =
      some [⟨"A", ((50 : ℤ) : ℚ) / 100⟩] := by
  simp only [heatmapData, mapIdxO, heatmapRow, summary_witness_row, Option.map_some']

/-- Witness helper: the summary response of the C7 witness store. -/
lemma summary_witness_resp :
    get_summary [⟨"A", "S", 1, 0, 1/2, 0, 0⟩] 0 (fun _ => 0) =
      .ok ⟨⟨"A", ((50 : ℤ) : ℚ) / 100⟩,
           round2 ((([⟨"A", ((50 : ℤ) : ℚ) / 100⟩] : List CityHeatmapData).map
             (fun e => e.risk)).sum / 1),
           1⟩ := by
  unfold get_summary
  rw [summary_witness_data]
  rfl

/-- Witness for C7 at a concrete input: a one-region store. -/
theorem get_summary_spec_witness :
    (1 : ℕ) = ([⟨"A", "S", 1, 0, 1/2, 0, 0⟩] : List City).length :=
  ((get_summary_spec 0 (fun _ => 0)).2 [⟨"A", "S", 1, 0, 1/2, 0, 0⟩]
    [⟨"A", ((50 : ℤ) : ℚ) / 100⟩] _ (by simp) summary_witness_data
    summary_witness_resp).2.2

/-! ## Claim theorems: alerts (C2) -/

/-- C2 amended: the count always equals the length of the alert list, and
every returned entry comes from a city whose freshly drawn threshold-test
score was at least 0.75; the reported score is a separate fresh draw (and
may differ from the test score). -/
theorem get_alerts_spec (cities : List City) (today : ℤ) (noiseF noiseR : ℕ → ℚ)
    (resp : AlertResponse) (h : get_alerts cities today noiseF noiseR = .ok resp) :
    resp.count = resp.alerts.length ∧
    ∀ a ∈ resp.alerts, ∃ i c, cities.get? i = some c ∧
      ∃ rf rr, compute_risk c.base_risk today c.population c.area_sq_km (noiseF i) = some rf ∧
        HIGH_RISK_THRESHOLD ≤ rf ∧
        compute_risk c.base_risk today c.population c.area_sq_km (noiseR i) = some rr ∧
        a = ⟨c.name, rr⟩ := by
  unfold get_alerts at h
  cases hmap : mapIdxO (fun i c => alertRow c today (noiseF i) (noiseR i)) 0 cities with
  | none => rw [hmap] at h; simp at h
  | some rows =>
    rw [hmap] at h
    simp only [AlertsResult.ok.injEq] at h
    subst h
    refine ⟨rfl, ?_⟩
    intro a ha
    have hsome : some a ∈ rows := List.reduceOption_mem_iff.mp ha
    obtain ⟨i, c, hget, hrow⟩ := mapIdxO_mem cities 0 rows hmap (some a) hsome
    rw [Nat.zero_add] at hrow
    refine ⟨i, c, hget, ?_⟩
    unfold alertRow at hrow
    cases hcf : compute_risk c.base_risk today c.population c.area_sq_km (noiseF i) with
    | none => rw [hcf] at hrow; simp at hrow
    | some rf =>
      rw [hcf] at hrow
      dsimp only at hrow
      by_cases hth : HIGH_RISK_THRESHOLD ≤ rf
      · rw [if_pos hth] at hrow
        cases hcr : compute_risk c.base_risk today c.population c.area_sq_km (noiseR i) with
        | none => rw [hcr] at hrow; simp at hrow
        | some rr =>
          rw [hcr] at hrow
          simp only [Option.some_inj] at hrow
          exact ⟨rf, rr, rfl, hth, rfl, hrow.symm⟩
      · rw [if_neg hth] at hrow
        simp at hrow

/-- Witness for C2 (amended) at a concrete input: the empty store. -/
theorem get_alerts_spec_witness :
    (⟨[], 0⟩ : AlertResponse).count = (⟨[], 0⟩ : AlertResponse).alerts.length :=
  (get_alerts_spec [] 0 (fun _ => 0) (fun _ => 0) ⟨[], 0⟩ rfl).1

/-- C2 counterexample: with the threshold-test draw at 0 and the report
draw at -0.03 (both inside the noise interval), a region with base risk
0.75 is included in the alert list with a reported score 0.72 < 0.75, so
the claim that every returned entry has reported score at least 0.75 is
false. -/
theorem get_alerts_reported_below_threshold :
    get_alerts [⟨"X", "S", 1, 0, 3/4, 0, 0⟩] 0 (fun _ => 0) (fun _ => -(3/100)) =
      .ok ⟨[⟨"X", ((72 : ℤ) : ℚ) / 100⟩], 1⟩ ∧
    ((72 : ℤ) : ℚ) / 100 < HIGH_RISK_THRESHOLD ∧
    (0 : ℚ) ∈ Set.Icc (-(3/100) : ℚ) (3/100) ∧
    (-(3/100) : ℚ) ∈ Set.Icc (-(3/100) : ℚ) (3/100) := by
  have hm : monthOfDay 0 = 1 := by decide
  have h1 : compute_risk (3/4) 0 0 1 0 = some (((75 : ℤ) : ℚ) / 100) :=
    compute_risk_concrete _ _ _ _ _ one_ne_zero 75
      (by rw [hm]; norm_num [monsoonFactor, summerFactor, densityFactor, min_def, max_def])
  have h2 : compute_risk (3/4) 0 0 1 (-(3/100)) = some (((72 : ℤ) : ℚ) / 100) :=
    compute_risk_concrete _ _ _ _ _ one_ne_zero 72
      (by rw [hm]; norm_num [monsoonFactor, summerFactor, densityFactor, min_def, max_def])
  refine ⟨?_, by norm_num [HIGH_RISK_THRESHOLD], by norm_num [Set.mem_Icc],
    by norm_num [Set.mem_Icc]⟩
  unfold get_alerts
  simp only [mapIdxO, alertRow]
  rw [h1]
  dsimp only
  rw [if_pos (by norm_num [HIGH_RISK_THRESHOLD] : HIGH_RISK_THRESHOLD ≤ ((75 : ℤ) : ℚ) / 100)]
  rw [h2]
  simp [List.reduceOption]

/-! ## Claim theorems: chat routing (C10) -/

lemma hasPrefixL_iff : ∀ n h : List Char, hasPrefixL n h = true ↔ n <+: h
  | [], h => by simp [hasPrefixL]
  | a :: as, [] => by simp [hasPrefixL]
  | a :: as, b :: bs => by
    simp only [hasPrefixL, Bool.and_eq_true, decide_eq_true_eq]
    rw [hasPrefixL_iff as bs, List.cons_prefix_cons]

lemma containsL_iff : ∀ n h : List Char, containsL n h = true ↔ n <:+: h
  | n, [] => by
    simp only [containsL, List.isEmpty_iff, List.infix_nil]
  | n, b :: bs => by
    simp only [containsL, Bool.or_eq_true]
    rw [hasPrefixL_iff, containsL_iff n bs, List.infix_cons_iff]

lemma containsL_of_infix {n₁ n₂ h : List Char} (hsub : n₂ <:+: n₁)
    (hc : containsL n₁ h = true) : containsL n₂ h = true :=
  (containsL_iff _ _).mpr (hsub.trans ((containsL_iff _ _).mp hc))

lemma chatGo_none (today : ℤ) (text : String) (noiseC : ℕ → ℚ)
    (hr : substrOf "risk" text = false) (ht : substrOf "trend" text = false) :
    ∀ (cities : List City) (i : ℕ), chatGo today text noiseC cities i = none := by
  intro cities
  induction cities with
  | nil => intro i; rfl
  | cons c rest ih =>
    intro i
    simp only [chatGo, hr, ht, Bool.false_eq_true, if_false]
    split <;> exact ih (i + 1)

/-- C10: when the query mentions a stored region name but contains neither
"risk" nor "trend", the city loop does not answer about that region: the
handler behaves exactly like its post-loop part (the "high risk"/"alerts"
keyword branch, else the generic help message); moreover "high risk"
cannot occur in such a query. -/
theorem chat_region_without_keywords (cities : List City) (today : ℤ) (query : String)
    (noiseC noiseF noiseR : ℕ → ℚ)
    (_hmatch : ∃ c ∈ cities, substrOf (lowerStr c.name) (lowerStr query) = true)
    (hr : substrOf "risk" (lowerStr query) = false)
    (ht : substrOf "trend" (lowerStr query) = false) :
    chat cities today query noiseC noiseF noiseR =
      chatFallback cities today (lowerStr query) noiseF noiseR ∧
    substrOf "high risk" (lowerStr query) = false := by
  constructor
  · unfold chat
    dsimp only
    rw [chatGo_none today (lowerStr query) noiseC hr ht cities 0]
  · cases hhr : substrOf "high risk" (lowerStr query) with
    | false => rfl
    | true =>
      exfalso
      have hrisk : substrOf "risk" (lowerStr query) = true :=
        containsL_of_infix (by decide) hhr
      rw [hr] at hrisk
      exact Bool.noConfusion hrisk

/-- Witness for C10 at a concrete input: the query mentions Mumbai but no
keyword, and the handler returns the generic help message. -/
theorem chat_region_without_keywords_witness :
    chat [⟨"Mumbai", "MH", 600, 20000000, 11/20, 0, 0⟩] 0 "hello mumbai"
        (fun _ => 0) (fun _ => 0) (fun _ => 0) =
      chatFallback [⟨"Mumbai", "MH", 600, 20000000, 11/20, 0, 0⟩] 0
        (lowerStr "hello mumbai") (fun _ => 0) (fun _ => 0) ∧
    substrOf "high risk" (lowerStr "hello mumbai") = false :=
  chat_region_without_keywords _ 0 "hello mumbai" _ _ _
    ⟨⟨"Mumbai", "MH", 600, 20000000, 11/20, 0, 0⟩, by simp, by decide⟩
    (by decide) (by decide)

/-! ## Sanity checks on the embedding -/

example : civilFromDays 0 = (1970, 1, 1) := by decide
example : monthOfDay 0 = 1 := by decide
example : daysFromCivil 1970 1 1 = 0 := by decide
example : fmtDay 0 = "1970-01-01" := by decide
example : parseDate "2024-13-01" = none := by decide
example : parseDate "2024-02-29" = some (daysFromCivil 2024 2 29) := by decide
example : parseDate "2023-02-29" = none := by decide
example : substrOf "risk" "high risk" = true := by decide
example : lowerStr "Mumbai QX" = "mumbai qx" := by decide
example : compute_risk (1/2) 0 0 1 (3/100) = some (53/100) := by
  have hm : monthOfDay 0 = 1 := by decide
  simp only [compute_risk, hm]
  norm_num [monsoonFactor, summerFactor, densityFactor, round2, pyRound,
    Int.fract, round_eq]
